import Mathlib

/-!
Verification of the chooks-agent (NanoClaw) bridge.

Shallow embedding of the parts of the source that the checked properties
concern:

* the CLI chat mode (the ipc mailbox poll loop, the cleanup handler and the
  line handler of the readline interface);
* the Slack channel adapter in src/channels/slack.ts (message handler,
  sendMessage with its 4000 character chunking, resolveUserName,
  isConnected and disconnect);
* the watchdog shell script (container reaper and heartbeat staleness
  check).

JavaScript strings are modelled as `List Char`; machine arithmetic of the
shell script is modelled on `Nat`/`Int`, with `Int.tdiv` for shell integer
division, which truncates toward zero.
-/

/- ### String helpers -/

/-- Checks whether `pat` is a leading segment of `l`; on success returns the
remainder of `l` after `pat`. -/
def dropPrefixOpt : List Char → List Char → Option (List Char)
  | [], l => some l
  | _ :: _, [] => none
  | p :: ps, c :: cs => if p = c then dropPrefixOpt ps cs else none

/-- Splits `l` at the first occurrence of `pat`: returns the part before
the occurrence and the part after it, or `none` when `pat` does not occur. -/
def findSplit (pat : List Char) : List Char → Option (List Char × List Char)
  | [] =>
    match pat with
    | [] => some ([], [])
    | _ :: _ => none
  | c :: cs =>
    match dropPrefixOpt pat (c :: cs) with
    | some rest => some ([], rest)
    | none =>
      match findSplit pat cs with
      | some (b, a) => some (c :: b, a)
      | none => none

def internalOpen : List Char := "<internal>".data

def internalClose : List Char := "</internal>".data

/-- Fueled worker for `stripInternal`: repeatedly removes the first lazily
matched region between the opening and the closing internal tag, mirroring
the global regex replace in the source. One unit of fuel per removed
region; each removal consumes at least the two tags, so `l.length` fuel is
always enough. -/
def stripInternalGo : Nat → List Char → List Char
  | 0, l => l
  | fuel + 1, l =>
    match findSplit internalOpen l with
    | none => l
    | some (pre, afterOpen) =>
      match findSplit internalClose afterOpen with
      | none => l
      | some (_, afterClose) => pre ++ stripInternalGo fuel afterClose

/-- Removal of every internal region, as done by the replace call with the
regex over internal tags (lazy body, global flag) in the CLI chat mode. -/
def stripInternal (l : List Char) : List Char := stripInternalGo l.length l

/-- The whitespace class of the JavaScript trim method, restricted to the
ASCII whitespace characters. -/
def isJsSpace (c : Char) : Bool :=
  c = ' ' || c = '\t' || c = '\n' || c = '\r' || c = Char.ofNat 11 || c = Char.ofNat 12

/-- The JavaScript trim method: whitespace removed from both ends. -/
def jsTrim (l : List Char) : List Char :=
  ((l.dropWhile isJsSpace).reverse.dropWhile isJsSpace).reverse

/-- The combination applied to every agent message before display in the
CLI chat mode: strip internal regions, then trim. -/
def stripAndTrim (s : String) : String := String.mk (jsTrim (stripInternal s.data))

/- ### Filesystem IPC mailbox poll (CLI chat mode, ipcInterval) -/

/-- Contents of one mailbox file as seen by the poll loop: either the file
does not parse as JSON, or it parses to an envelope with a type tag and a
text field (an absent or non string text field is modelled as the empty
string, which is falsy in the source). -/
inductive FileContent where
  | malformed
  | envelope (ty : String) (text : String)
deriving DecidableEq

/-- Outcome of the poll loop body on one file. -/
structure PollResult where
  delivered : Option String
  deleted : Bool
deriving DecidableEq

/-- Body of the poll loop for one discovered file. On a successful parse of
a message envelope with truthy text, the text is stripped and trimmed and
printed when non empty, then the file is unlinked. A parse failure throws
before the unlink call, so control jumps to the catch clause and the file
is left in place. -/
def pollFile : FileContent → PollResult
  | FileContent.malformed => { delivered := none, deleted := false }
  | FileContent.envelope ty txt =>
    if ty = "message" ∧ txt ≠ "" then
      let text := stripAndTrim txt
      if text ≠ "" then { delivered := some text, deleted := true }
      else { delivered := none, deleted := true }
    else { delivered := none, deleted := true }

/-- One polling pass over the discovered files: delivered texts in order,
and the files still present afterwards (those whose unlink never ran). -/
def pollPass : List FileContent → List String × List FileContent
  | [] => ([], [])
  | f :: fs =>
    let r := pollFile f
    let rest := pollPass fs
    ((match r.delivered with | some t => [t] | none => []) ++ rest.1,
     (if r.deleted then [] else [f]) ++ rest.2)

/- ### Slack channel: sendMessage (slack.ts) -/

/-- Fueled worker for the chunk loop of sendMessage: slices of 4000
characters, stepping by 4000, as the for loop in the source does. Each
step removes at least one character, so `l.length` fuel is always enough. -/
def chunkLoopGo : Nat → List Char → List (List Char)
  | 0, _ => []
  | _, [] => []
  | fuel + 1, c :: cs => (c :: cs).take 4000 :: chunkLoopGo fuel ((c :: cs).drop 4000)

/-- The chunk loop of sendMessage over the whole text. -/
def chunkLoop (l : List Char) : List (List Char) := chunkLoopGo l.length l

/-- Texts of the transport calls made by sendMessage: a single call when
the text is within the 4000 character limit, otherwise the slices of the
chunk loop. -/
def sendMessageCalls (text : List Char) : List (List Char) :=
  if text.length ≤ 4000 then [text] else chunkLoop text

/-- The channel id used for the transport calls: the jid with a leading
slack prefix removed, as the regex replace in the source does. -/
def stripSlackJid (jid : List Char) : List Char :=
  match dropPrefixOpt "slack:".data jid with
  | some rest => rest
  | none => jid

/-- Sequential awaiting of the transport calls: each call is attempted in
order; a rejected call throws, so later calls are not attempted. Returns
the attempted call texts and the thrown error, if any. -/
def postLoop (post : List Char → Except Unit Unit) : List (List Char) → List (List Char) × Option Unit
  | [] => ([], none)
  | c :: cs =>
    match post c with
    | Except.ok _ =>
      let rest := postLoop post cs
      (c :: rest.1, rest.2)
    | Except.error e => ([c], some e)

/-- sendMessage of slack.ts. When the app is not initialized it logs a
warning and returns without any transport call. Otherwise it posts the
chunks sequentially inside a try catch whose catch clause only logs, so
the returned promise always resolves; the value carries the texts of the
attempted transport calls. -/
def sendMessage (app : Bool) (post : List Char → List Char → Except Unit Unit)
    (jid text : List Char) : Except Unit (List (List Char)) :=
  if app = false then Except.ok []
  else
    let channel := stripSlackJid jid
    let r := postLoop (post channel) (sendMessageCalls text)
    match r.2 with
    | some _ => Except.ok r.1
    | none => Except.ok r.1

/- ### Slack channel: connection state -/

/-- App field of the channel right after construction: null. -/
def initApp : Bool := false

/-- Effect of connect on the app field: it is assigned a fresh app. -/
def connectApp (_app : Bool) : Bool := true

/-- Effect of disconnect on the app field: it is set back to null. -/
def disconnectApp (_app : Bool) : Bool := false

/-- isConnected of slack.ts: the app field is not null. -/
def isConnected (app : Bool) : Bool := app

/- ### Slack channel: inbound message handler and name resolution -/

/-- The user record returned by the users info call; absent fields are
modelled as empty strings, which are falsy in the source. -/
structure SlackUser where
  display_name : String
  real_name : String
  name : String
deriving DecidableEq

/-- The fallback chain of resolveUserName over a fetched user record:
display name, then real name, then handle, then the raw user id. -/
def pickUserName (u : SlackUser) (userId : String) : String :=
  if u.display_name ≠ "" then u.display_name
  else if u.real_name ≠ "" then u.real_name
  else if u.name ≠ "" then u.name
  else userId

/-- Lookup in the user name cache (a map keyed by user id; the most recent
entry for a key shadows older ones). -/
def cacheGet : List (String × String) → String → Option String
  | [], _ => none
  | (k, v) :: rest, key => if k = key then some v else cacheGet rest key

/-- The fetch half of resolveUserName: query the transport for the user
record, pick a name by the fallback chain, cache it and return it; a
rejected query is caught and the raw user id is returned uncached. -/
def resolveFetch (cache : List (String × String)) (fetch : Except Unit SlackUser)
    (userId : String) : String × List (String × String) :=
  match fetch with
  | Except.ok u =>
    let n := pickUserName u userId
    (n, (userId, n) :: cache)
  | Except.error _ => (userId, cache)

/-- resolveUserName of slack.ts: a truthy cached value is returned as is,
otherwise the transport is queried. -/
def resolveUserName (cache : List (String × String)) (fetch : Except Unit SlackUser)
    (userId : String) : String × List (String × String) :=
  match cacheGet cache userId with
  | some c => if c ≠ "" then (c, cache) else resolveFetch cache fetch userId
  | none => resolveFetch cache fetch userId

/-- The fields of an inbound Slack event the handler reads. Optional fields
model absent properties; the source tests them for truthiness. -/
structure SlackMsg where
  channel_type : String
  subtype : Option String
  user : Option String
  text : Option String
  ts : String
deriving DecidableEq

/-- Truthiness of an optional string property. -/
def truthyOpt : Option String → Bool
  | some s => s ≠ ""
  | none => false

/-- Observable callbacks of the inbound handler, in emission order. -/
inductive SlackAct where
  | chatMetadata (chatJid timestamp senderName : String)
  | message (chatJid id sender senderName content timestamp : String)
deriving DecidableEq

/-- The message handler registered in connect of slack.ts. Non DM events,
events with a subtype and events without a user id return early. For the
rest, the jid is the prefixed user id, the sender name is resolved through
the cache, chat metadata is emitted, and the normalized message is emitted
only when the jid is a registered group. `toIso` stands in for the
floating point timestamp conversion of the source, which is outside this
embedding. Returns the emitted callbacks in order and the updated cache. -/
def slackMessageHandler (toIso : String → String) (registered : String → Bool)
    (cache : List (String × String)) (fetch : Except Unit SlackUser) (m : SlackMsg) :
    List SlackAct × List (String × String) :=
  if m.channel_type ≠ "im" then ([], cache)
  else if truthyOpt m.subtype then ([], cache)
  else
    match m.user with
    | none => ([], cache)
    | some userId =>
      if userId = "" then ([], cache)
      else
        let chatJid := "slack:" ++ userId
        let timestamp := toIso m.ts
        let content := m.text.getD ""
        let msgId := m.ts
        let rn := resolveUserName cache fetch userId
        (SlackAct.chatMetadata chatJid timestamp rn.1 ::
          (if registered chatJid then
            [SlackAct.message chatJid msgId userId rn.1 content timestamp]
          else []),
         rn.2)

/- ### Watchdog script: container reaper -/

/-- Decimal value of a digit list, as read by shell arithmetic. -/
def digitsToNat (l : List Char) : Nat :=
  l.foldl (fun acc c => acc * 10 + (c.toNat - 48)) 0

/-- The epoch extraction of the reaper: the grep for exactly thirteen
digits anchored at the end of the container name. Some value when the last
thirteen characters of the name are digits, none otherwise. -/
def extractEpochMs (name : String) : Option Nat :=
  let l := name.data
  let last13 := l.drop (l.length - 13)
  if 13 ≤ l.length ∧ last13.all Char.isDigit then some (digitsToNat last13) else none

/-- Whether the container name carries the nanoclaw prefix the reaper
filters on. -/
def startsWithNanoclaw (name : String) : Bool :=
  (dropPrefixOpt "nanoclaw-".data name.data).isSome

/-- Decision of the cleanup function in the watchdog script for one
container: only running containers with the nanoclaw prefix are examined;
an examined container with no extractable epoch is skipped by the continue;
otherwise its age in seconds (epoch milliseconds divided by 1000, floor on
nonnegative values, subtracted from the current time) is compared strictly
against the 3900 second maximum. -/
def cleanupContainerStops (status name : String) (now : Nat) : Bool :=
  if status = "running" ∧ startsWithNanoclaw name then
    match extractEpochMs name with
    | none => false
    | some epochMs =>
      let epochS : Int := ((epochMs / 1000 : Nat) : Int)
      let age : Int := (now : Int) - epochS
      decide (age > 3900)
  else false

/- ### Watchdog script: heartbeat staleness -/

/-- The heartbeat staleness decision of the watchdog script. `none` stands
for an absent or empty heartbeat file, where the script logs and exits
without action. Otherwise the age in milliseconds is divided by 1000 with
shell integer division (truncation toward zero) and the host is killed only
when the result strictly exceeds the 300 second threshold. -/
def watchdogKills (nowS : Nat) (lastBeat : Option Int) : Bool :=
  match lastBeat with
  | none => false
  | some lb =>
    let nowMs : Int := (nowS : Int) * 1000
    let ageMs : Int := nowMs - lb
    let ageS : Int := Int.tdiv ageMs 1000
    decide (ageS > 300)

/- ### CLI chat mode: line handler and cleanup -/

/-- The structured output of one container invocation, as read by the line
handler; optional fields model absent properties. An object result is
modelled by its stringified form. -/
structure ContainerOutput where
  newSessionId : Option String
  result : Option String
  status : String
  error : Option String
deriving DecidableEq

/-- Observable actions of the line handler, in execution order. -/
inductive CliAct where
  | setSession (folder token : String)
  | printText (text : String)
  | printError (text : String)
deriving DecidableEq

/-- First half of the incremental output callback: the session update,
performed when the output carries a truthy new session id. -/
def incrementalSessionActs (groupFolder : String) (r : ContainerOutput) : List CliAct :=
  match r.newSessionId with
  | some sid => if sid ≠ "" then [CliAct.setSession groupFolder sid] else []
  | none => []

/-- Second half of the incremental output callback: the stripped and
trimmed result text is printed when truthy and non empty after stripping. -/
def incrementalPrintActs (r : ContainerOutput) : List CliAct :=
  match r.result with
  | some raw =>
    if raw ≠ "" then
      let text := stripAndTrim raw
      if text ≠ "" then [CliAct.printText text] else []
    else []
  | none => []

/-- The incremental output callback passed to the container run by the line
handler: session update first, then the result text display. -/
def onIncrementalOutput (groupFolder : String) (r : ContainerOutput) : List CliAct :=
  incrementalSessionActs groupFolder r ++ incrementalPrintActs r

/-- Final section of the line handler after the awaited invocation
returns: the final session update, then the error indicator when the
output status is error. -/
def finalOutputActions (groupFolder : String) (out : ContainerOutput) : List CliAct :=
  incrementalSessionActs groupFolder out ++
    (if out.status = "error" then
      [CliAct.printError
        (match out.error with
         | some e => if e ≠ "" then e else "Unknown error"
         | none => "Unknown error")]
    else [])

/-- Effect of a list of line handler actions on the persisted session map:
each session update overwrites the entry of its folder; prints leave the
map unchanged. -/
def applySessions (m : String → Option String) : List CliAct → (String → Option String)
  | [] => m
  | CliAct.setSession f t :: rest => applySessions (fun x => if x = f then some t else m x) rest
  | CliAct.printText _ :: rest => applySessions m rest
  | CliAct.printError _ :: rest => applySessions m rest

/-- Observable steps of the cleanup handler of the CLI chat mode. -/
inductive CleanupAct where
  | clearIpcInterval
  | sentinelWrite (ok : Bool)
  | containerStop (name : String) (ok : Bool)
  | exitProcess
deriving DecidableEq

/-- The cleanup handler of the CLI chat mode: clears the poll interval;
when a live container process is tracked, writes the close sentinel to its
input stream inside a try catch of its own, then, when the container name
is known, stops the container inside a second independent try catch; both
failures are swallowed, and the process exits. The two ok flags record
whether the respective step succeeded. -/
def cleanupActions (activeProc : Bool) (procKilled : Bool) (containerName : Option String)
    (writeOk stopOk : Bool) : List CleanupAct :=
  CleanupAct.clearIpcInterval ::
    ((if activeProc && !procKilled then
        CleanupAct.sentinelWrite writeOk ::
          (match containerName with
           | some n => [CleanupAct.containerStop n stopOk]
           | none => [])
      else []) ++ [CleanupAct.exitProcess])

/- ### Helper lemmas -/

theorem chunkLoopGo_flatten (fuel : Nat) (l : List Char) (h : l.length ≤ fuel) :
    (chunkLoopGo fuel l).flatten = l := by
  induction fuel generalizing l with
  | zero =>
    have : l = [] := List.eq_nil_of_length_eq_zero (Nat.le_zero.mp h)
    subst this
    rfl
  | succ fuel ih =>
    match l with
    | [] => rfl
    | c :: cs =>
      rw [chunkLoopGo, List.flatten_cons, ih ((c :: cs).drop 4000)]
      · exact List.take_append_drop _ _
      · simp only [List.length_drop, List.length_cons] at h ⊢
        omega

theorem chunkLoop_flatten (l : List Char) : (chunkLoop l).flatten = l :=
  chunkLoopGo_flatten l.length l (Nat.le_refl _)

theorem sendMessageCalls_flatten (l : List Char) : (sendMessageCalls l).flatten = l := by
  unfold sendMessageCalls
  split
  · simp
  · exact chunkLoop_flatten l

theorem postLoop_all_ok (post : List Char → Except Unit Unit)
    (hp : ∀ c, post c = Except.ok ()) (cs : List (List Char)) :
    postLoop post cs = (cs, none) := by
  induction cs with
  | nil => rfl
  | cons c cs ih => simp [postLoop, hp c, ih]

theorem chunkLoopGo_nil (fuel : Nat) : chunkLoopGo fuel [] = [] := by
  cases fuel <;> rfl

theorem chunkLoop_len_4001 (t : List Char) (h : t.length = 4001) :
    chunkLoop t = [t.take 4000, t.drop 4000] := by
  match t with
  | [] => simp at h
  | c :: cs =>
    have hd : ((c :: cs).drop 4000).length = 1 := by
      simp only [List.length_drop]
      omega
    obtain ⟨a, ha⟩ := List.length_eq_one.mp hd
    unfold chunkLoop
    rw [h]
    show chunkLoopGo (4000 + 1) (c :: cs) = _
    rw [chunkLoopGo, ha]
    show _ :: chunkLoopGo (3999 + 1) [a] = _
    rw [chunkLoopGo]
    simp [chunkLoopGo_nil]

/- ### C1 -/

/-- C1: the claim states that a file whose contents fail to parse is
deleted by the poll loop without a delivery callback. In the source the
unlink call sits after the parse inside the same try block, so a parse
failure jumps to the catch clause before the unlink runs: the malformed
file is not delivered, but it is also not deleted. Here a single pass over
a mailbox holding one malformed file delivers nothing and leaves the file
in place, refuting the deletion half of the claim. -/
theorem C1_counterexample :
    pollPass [FileContent.malformed] = ([], [FileContent.malformed]) ∧
    (pollFile FileContent.malformed).deleted = false := by
  constructor
  · rfl
  · rfl

/-- C1 (amended): for every file discovered by the poll whose contents
fail to parse, no delivery callback is invoked, and the file is not
deleted: it survives the pass and is encountered again on every later
polling pass. -/
theorem C1_malformed_skipped_not_deleted :
    ∀ fs : List FileContent,
      pollPass (FileContent.malformed :: fs) =
        ((pollPass fs).1, FileContent.malformed :: (pollPass fs).2) ∧
      (pollFile FileContent.malformed).delivered = none := by
  intro fs
  constructor
  · simp [pollPass, pollFile]
  · rfl

/- ### C2 -/

/-- C2: sendMessage splits outgoing text into sequential chunks at the
4000 character transport limit: text of length exactly 4000 is sent as one
transport call carrying the whole text; length 4001 yields exactly two
calls whose second carries exactly one character; and the chunks of any
text concatenate, in call order, back to the original text. -/
theorem C2_sendMessage_chunking :
    (∀ (jid t : List Char), t.length = 4000 →
        sendMessage true (fun _ _ => Except.ok ()) jid t = Except.ok [t]) ∧
    (∀ (jid t : List Char), t.length = 4001 →
        sendMessage true (fun _ _ => Except.ok ()) jid t =
          Except.ok [t.take 4000, t.drop 4000] ∧ (t.drop 4000).length = 1) ∧
    (∀ t : List Char, (sendMessageCalls t).flatten = t) := by
  refine ⟨?_, ?_, sendMessageCalls_flatten⟩
  · intro jid t h
    have hc : sendMessageCalls t = [t] := by
      unfold sendMessageCalls
      rw [if_pos (by omega)]
    simp [sendMessage, hc, postLoop_all_ok _ (fun _ => rfl)]
  · intro jid t h
    have hc : sendMessageCalls t = [t.take 4000, t.drop 4000] := by
      unfold sendMessageCalls
      rw [if_neg (by omega)]
      exact chunkLoop_len_4001 t h
    refine ⟨?_, ?_⟩
    · simp [sendMessage, hc, postLoop_all_ok _ (fun _ => rfl)]
    · simp only [List.length_drop]
      omega

/-- Witness for C2 at a concrete input: a text of 4001 identical
characters is sent as one call of 4000 characters followed by one call of
a single character. -/
theorem C2_sendMessage_chunking_witness :
    sendMessage true (fun _ _ => Except.ok ()) [] (List.replicate 4001 'x') =
      Except.ok [List.replicate 4000 'x', ['x']] := by
  have h := (C2_sendMessage_chunking.2.1 [] (List.replicate 4001 'x')
    (List.length_replicate 4001 'x')).1
  rw [h, List.take_replicate, List.drop_replicate]
  norm_num

/- ### C3 -/

/-- C3: for every running container examined by the reaper (running status,
nanoclaw name): one whose extracted epoch puts its age exactly at the 3900
second maximum lifetime is not stopped; one whose age is one millisecond
over the maximum is stopped; and one whose name yields no extractable
thirteen digit epoch is never stopped, whatever the current time. -/
theorem C3_reaper_boundary :
    (∀ (now epochMs : Nat) (name : String),
        startsWithNanoclaw name = true →
        extractEpochMs name = some epochMs →
        (now : Int) * 1000 - (epochMs : Int) = 3900000 →
        cleanupContainerStops "running" name now = false) ∧
    (∀ (now epochMs : Nat) (name : String),
        startsWithNanoclaw name = true →
        extractEpochMs name = some epochMs →
        (now : Int) * 1000 - (epochMs : Int) = 3900001 →
        cleanupContainerStops "running" name now = true) ∧
    (∀ (status name : String) (now : Nat),
        extractEpochMs name = none →
        cleanupContainerStops status name now = false) := by
  refine ⟨?_, ?_, ?_⟩
  · intro now epochMs name hsw hex hage
    simp only [cleanupContainerStops, hsw, hex, and_self, if_true]
    rw [decide_eq_false_iff_not]
    omega
  · intro now epochMs name hsw hex hage
    simp only [cleanupContainerStops, hsw, hex, and_self, if_true]
    rw [decide_eq_true_eq]
    omega
  · intro status name now hex
    unfold cleanupContainerStops
    split
    · rw [hex]
    · rfl

/-- Witness for C3 at concrete inputs: the container whose epoch is 0 ms
seen at second 3900 (age exactly the maximum) is kept; the container whose
epoch is 999 ms seen at second 3901 (age 3900001 ms, one millisecond over)
is stopped; a running nanoclaw container with no trailing digits is kept at
any age. -/
theorem C3_reaper_boundary_witness :
    cleanupContainerStops "running" "nanoclaw-0000000000000" 3900 = false ∧
    cleanupContainerStops "running" "nanoclaw-0000000000999" 3901 = true ∧
    cleanupContainerStops "running" "nanoclaw-latest" 999999999 = false :=
  ⟨C3_reaper_boundary.1 3900 0 "nanoclaw-0000000000000" (by decide) (by decide) (by decide),
   C3_reaper_boundary.2.1 3901 999 "nanoclaw-0000000000999" (by decide) (by decide) (by decide),
   C3_reaper_boundary.2.2 "running" "nanoclaw-latest" 999999999 (by decide)⟩

/- ### C4 -/

/-- C4: the claim states that any heartbeat age over the 300 second
staleness threshold triggers termination. The script divides the age in
milliseconds by 1000 before the comparison, so an age of 300001
milliseconds (one millisecond over the threshold) yields 300 whole seconds
and does not trigger: at second 1000 with last beat 699999 the age exceeds
300000 milliseconds, yet the watchdog does not kill the host. -/
theorem C4_counterexample :
    (1000 : Int) * 1000 - 699999 > 300000 ∧
    watchdogKills 1000 (some 699999) = false := by
  constructor
  · decide
  · rfl

/-- C4 (amended): a heartbeat age exactly at the 300 second staleness
threshold does not trigger termination; an age over the threshold by less
than one full second does not trigger either, because the comparison is on
whole seconds after truncating division; an age over by at least one full
second does trigger termination; and when the heartbeat file is absent or
empty the watchdog logs and takes no corrective action. -/
theorem C4_watchdog_boundary :
    (∀ (now : Nat) (lb : Int), (now : Int) * 1000 - lb = 300000 →
        watchdogKills now (some lb) = false) ∧
    (∀ (now : Nat) (lb : Int), 300000 < (now : Int) * 1000 - lb →
        (now : Int) * 1000 - lb < 301000 →
        watchdogKills now (some lb) = false) ∧
    (∀ (now : Nat) (lb : Int), 301000 ≤ (now : Int) * 1000 - lb →
        watchdogKills now (some lb) = true) ∧
    (∀ now : Nat, watchdogKills now none = false) := by
  refine ⟨?_, ?_, ?_, fun _ => rfl⟩
  · intro now lb h
    have hnn : (0 : Int) ≤ (now : Int) * 1000 - lb := by omega
    simp only [watchdogKills, Int.tdiv_eq_ediv hnn (by norm_num : (0:Int) ≤ 1000)]
    rw [decide_eq_false_iff_not]
    omega
  · intro now lb h1 h2
    have hnn : (0 : Int) ≤ (now : Int) * 1000 - lb := by omega
    simp only [watchdogKills, Int.tdiv_eq_ediv hnn (by norm_num : (0:Int) ≤ 1000)]
    rw [decide_eq_false_iff_not]
    omega
  · intro now lb h
    have hnn : (0 : Int) ≤ (now : Int) * 1000 - lb := by omega
    simp only [watchdogKills, Int.tdiv_eq_ediv hnn (by norm_num : (0:Int) ≤ 1000)]
    rw [decide_eq_true_eq]
    omega

/-- Witness for C4 (amended) at concrete inputs: at second 1000, a last
beat of 700000 ms (age exactly 300 s) does not kill; 699500 ms (age 300.5
s) does not kill; 699000 ms (age 301 s) kills; and an absent heartbeat
never kills. -/
theorem C4_watchdog_boundary_witness :
    watchdogKills 1000 (some 700000) = false ∧
    watchdogKills 1000 (some 699500) = false ∧
    watchdogKills 1000 (some 699000) = true ∧
    watchdogKills 5 none = false :=
  ⟨C4_watchdog_boundary.1 1000 700000 (by decide),
   C4_watchdog_boundary.2.1 1000 699500 (by decide) (by decide),
   C4_watchdog_boundary.2.2.1 1000 699000 (by decide),
   C4_watchdog_boundary.2.2.2 5⟩

/- ### C5 -/

theorem incrementalSessionActs_some (folder sid : String) (r : ContainerOutput)
    (h1 : r.newSessionId = some sid) (h2 : sid ≠ "") :
    incrementalSessionActs folder r = [CliAct.setSession folder sid] := by
  simp [incrementalSessionActs, h1, h2]

theorem incrementalPrintActs_shape (r : ContainerOutput) :
    incrementalPrintActs r = [] ∨ ∃ t, incrementalPrintActs r = [CliAct.printText t] := by
  unfold incrementalPrintActs
  match r.result with
  | none => exact Or.inl rfl
  | some raw =>
    by_cases hraw : raw = ""
    · simp [hraw]
    · by_cases ht : stripAndTrim raw = ""
      · simp [hraw, ht]
      · exact Or.inr ⟨stripAndTrim raw, by simp [hraw, ht]⟩

theorem applySessions_no_set (m : String → Option String) (acts : List CliAct)
    (h : ∀ f t, CliAct.setSession f t ∉ acts) : applySessions m acts = m := by
  induction acts generalizing m with
  | nil => rfl
  | cons a rest ih =>
    match a with
    | CliAct.setSession f t => exact absurd (List.mem_cons_self _ _) (fun hm => h f t hm)
    | CliAct.printText t =>
      rw [applySessions]
      exact ih m (fun f t' hm => h f t' (List.mem_cons_of_mem _ hm))
    | CliAct.printError t =>
      rw [applySessions]
      exact ih m (fun f t' hm => h f t' (List.mem_cons_of_mem _ hm))

/-- C5: whenever a container output (incremental callback or final result)
carries a truthy new session continuity token, the setSession action comes
first in the emitted action sequence, before any result text is printed;
and applying the emitted actions to any prior session map leaves the
folder mapped to the new token, overwriting whatever was stored before. -/
theorem C5_session_persisted_first :
    (∀ (folder : String) (r : ContainerOutput) (sid : String),
        r.newSessionId = some sid → sid ≠ "" →
        ∃ rest, onIncrementalOutput folder r = CliAct.setSession folder sid :: rest ∧
          ∀ a ∈ rest, ∃ t, a = CliAct.printText t) ∧
    (∀ (folder : String) (out : ContainerOutput) (sid : String),
        out.newSessionId = some sid → sid ≠ "" →
        ∃ rest, finalOutputActions folder out = CliAct.setSession folder sid :: rest) ∧
    (∀ (m : String → Option String) (folder : String) (r : ContainerOutput) (sid : String),
        r.newSessionId = some sid → sid ≠ "" →
        applySessions m (onIncrementalOutput folder r) folder = some sid) := by
  refine ⟨?_, ?_, ?_⟩
  · intro folder r sid h1 h2
    refine ⟨incrementalPrintActs r, ?_, ?_⟩
    · rw [onIncrementalOutput, incrementalSessionActs_some folder sid r h1 h2]
      rfl
    · intro a ha
      rcases incrementalPrintActs_shape r with hsh | ⟨t, hsh⟩
      · rw [hsh] at ha
        exact absurd ha (List.not_mem_nil a)
      · rw [hsh] at ha
        exact ⟨t, List.eq_of_mem_singleton ha⟩
  · intro folder out sid h1 h2
    rw [finalOutputActions, incrementalSessionActs_some folder sid out h1 h2]
    exact ⟨_, rfl⟩
  · intro m folder r sid h1 h2
    rw [onIncrementalOutput, incrementalSessionActs_some folder sid r h1 h2,
      List.singleton_append, applySessions]
    have hns : ∀ f t, CliAct.setSession f t ∉ incrementalPrintActs r := by
      intro f t hm
      rcases incrementalPrintActs_shape r with hsh | ⟨u, hsh⟩ <;> rw [hsh] at hm <;> simp at hm
    rw [applySessions_no_set _ _ hns]
    simp

/-- Witness for C5 at a concrete input: an output carrying session token
s2 and result text hi yields the session update strictly before the print,
and updates a map previously holding s1 for the folder to s2. -/
theorem C5_session_persisted_first_witness :
    (∃ rest,
        onIncrementalOutput "main"
            { newSessionId := some "s2", result := some "hi", status := "ok", error := none } =
          CliAct.setSession "main" "s2" :: rest ∧ ∀ a ∈ rest, ∃ t, a = CliAct.printText t) ∧
    applySessions (fun _ => some "s1")
        (onIncrementalOutput "main"
          { newSessionId := some "s2", result := some "hi", status := "ok", error := none })
        "main" = some "s2" :=
  ⟨C5_session_persisted_first.1 "main" _ "s2" rfl (by decide),
   C5_session_persisted_first.2.2 (fun _ => some "s1") "main" _ "s2" rfl (by decide)⟩

/- ### C6 -/

/-- C6: for every mailbox file that parses to a message envelope, the
delivered content is the written text with every internal region removed
and whitespace trimmed; when the stripped text is empty nothing is
delivered; and in either case the file is deleted after the read. -/
theorem C6_ipc_roundtrip :
    ∀ txt : String,
      (stripAndTrim txt ≠ "" →
        pollFile (FileContent.envelope "message" txt) =
          { delivered := some (stripAndTrim txt), deleted := true }) ∧
      (stripAndTrim txt = "" →
        pollFile (FileContent.envelope "message" txt) =
          { delivered := none, deleted := true }) := by
  intro txt
  constructor
  · intro h
    have htxt : txt ≠ "" := by
      intro he
      subst he
      exact h rfl
    simp [pollFile, htxt, h]
  · intro h
    by_cases htxt : txt = ""
    · simp [pollFile, htxt]
    · simp [pollFile, htxt, h]

/-- Witness for C6 at concrete inputs: a message whose text holds an
internal region surrounded by whitespace is delivered stripped and
trimmed, and its file deleted; a message that is nothing but an internal
region is not delivered, and its file is still deleted. -/
theorem C6_ipc_roundtrip_witness :
    pollFile (FileContent.envelope "message" "  hi <internal>secret</internal> ") =
      { delivered := some "hi", deleted := true } ∧
    pollFile (FileContent.envelope "message" "<internal>x</internal>") =
      { delivered := none, deleted := true } := by
  have e1 : stripAndTrim "  hi <internal>secret</internal> " = "hi" := by decide
  have e2 : stripAndTrim "<internal>x</internal>" = "" := by decide
  constructor
  · have h := (C6_ipc_roundtrip "  hi <internal>secret</internal> ").1 (by rw [e1]; decide)
    rw [e1] at h
    exact h
  · have h := (C6_ipc_roundtrip "<internal>x</internal>").2 e2
    exact h

/- ### C7 -/

/-- C7: on cancellation with an active invocation (live tracked process
and known container name), the sentinel write and the forced container
stop are both attempted, for every combination of success and failure of
the two steps: each is wrapped in its own try catch, so a failure of
either never prevents the other from being attempted. -/
theorem C7_cleanup_both_steps :
    ∀ (n : String) (writeOk stopOk : Bool),
      CleanupAct.sentinelWrite writeOk ∈ cleanupActions true false (some n) writeOk stopOk ∧
      CleanupAct.containerStop n stopOk ∈ cleanupActions true false (some n) writeOk stopOk := by
  intro n writeOk stopOk
  constructor <;> simp [cleanupActions]

/- ### C8 -/

/-- C8: for every inbound Slack event that passes the event filters (DM
channel type, no subtype, truthy user id), chat metadata is emitted
unconditionally, and the normalized message is emitted if and only if the
chat jid is a registered group. -/
theorem C8_metadata_unconditional_message_iff_registered :
    ∀ (toIso : String → String) (registered : String → Bool)
      (cache : List (String × String)) (fetch : Except Unit SlackUser)
      (m : SlackMsg) (userId : String),
      m.channel_type = "im" →
      truthyOpt m.subtype = false →
      m.user = some userId →
      userId ≠ "" →
      (∃ nm, SlackAct.chatMetadata ("slack:" ++ userId) (toIso m.ts) nm ∈
          (slackMessageHandler toIso registered cache fetch m).1) ∧
      ((∃ nm, SlackAct.message ("slack:" ++ userId) m.ts userId nm (m.text.getD "") (toIso m.ts) ∈
          (slackMessageHandler toIso registered cache fetch m).1) ↔
        registered ("slack:" ++ userId) = true) := by
  intro toIso registered cache fetch m userId h1 h2 h3 h4
  cases hreg : registered ("slack:" ++ userId) with
  | true =>
    constructor
    · exact ⟨(resolveUserName cache fetch userId).1,
        by simp [slackMessageHandler, h1, h2, h3, h4, hreg]⟩
    · simp only [hreg, iff_true]
      exact ⟨(resolveUserName cache fetch userId).1,
        by simp [slackMessageHandler, h1, h2, h3, h4, hreg]⟩
  | false =>
    constructor
    · exact ⟨(resolveUserName cache fetch userId).1,
        by simp [slackMessageHandler, h1, h2, h3, h4, hreg]⟩
    · simp [slackMessageHandler, h1, h2, h3, h4, hreg]

/-- Witness for C8 at a concrete input: a DM from user U1 with U1
registered emits metadata and the message; the registration test of the
iff holds. -/
theorem C8_metadata_witness :
    (∃ nm, SlackAct.chatMetadata ("slack:" ++ "U1") (id "123.45") nm ∈
        (slackMessageHandler id (fun j => j == "slack:U1") []
          (Except.ok { display_name := "Alice", real_name := "Al", name := "alice" })
          { channel_type := "im", subtype := none, user := some "U1",
            text := some "hello", ts := "123.45" }).1) ∧
    ((∃ nm, SlackAct.message ("slack:" ++ "U1") "123.45" "U1" nm
          ((some "hello" : Option String).getD "") (id "123.45") ∈
        (slackMessageHandler id (fun j => j == "slack:U1") []
          (Except.ok { display_name := "Alice", real_name := "Al", name := "alice" })
          { channel_type := "im", subtype := none, user := some "U1",
            text := some "hello", ts := "123.45" }).1) ↔
      (fun j => j == "slack:U1") ("slack:" ++ "U1") = true) :=
  C8_metadata_unconditional_message_iff_registered id (fun j => j == "slack:U1") []
    (Except.ok { display_name := "Alice", real_name := "Al", name := "alice" })
    { channel_type := "im", subtype := none, user := some "U1",
      text := some "hello", ts := "123.45" }
    "U1" rfl rfl rfl (by decide)

/- ### C9 -/

/-- C9: transport faults never escape the channel boundary: sendMessage
returns a resolved promise for every connection state, transport behavior,
jid and text; a failed user info lookup on a cache miss makes
resolveUserName return the raw user id with the cache unchanged; and with
a failing lookup, delivery of an inbound registered DM still proceeds, the
raw id standing in as the sender name. -/
theorem C9_transport_faults_contained :
    (∀ (app : Bool) (post : List Char → List Char → Except Unit Unit) (jid text : List Char),
        ∃ calls, sendMessage app post jid text = Except.ok calls) ∧
    (∀ (cache : List (String × String)) (userId : String),
        cacheGet cache userId = none →
        resolveUserName cache (Except.error ()) userId = (userId, cache)) ∧
    (∀ (toIso : String → String) (registered : String → Bool) (m : SlackMsg) (userId : String),
        m.channel_type = "im" →
        truthyOpt m.subtype = false →
        m.user = some userId →
        userId ≠ "" →
        registered ("slack:" ++ userId) = true →
        SlackAct.message ("slack:" ++ userId) m.ts userId userId (m.text.getD "") (toIso m.ts) ∈
          (slackMessageHandler toIso registered [] (Except.error ()) m).1) := by
  refine ⟨?_, ?_, ?_⟩
  · intro app post jid text
    unfold sendMessage
    cases app with
    | false => exact ⟨[], rfl⟩
    | true =>
      simp only [Bool.true_eq_false, if_false]
      split <;> exact ⟨_, rfl⟩
  · intro cache userId h
    rw [resolveUserName, h]
    rfl
  · intro toIso registered m userId h1 h2 h3 h4 hreg
    have hr : resolveUserName [] (Except.error ()) userId = (userId, []) := rfl
    simp [slackMessageHandler, h1, h2, h3, h4, hreg, hr]

/-- Witness for C9 at concrete inputs: a failing transport call still
leaves sendMessage resolved; a failing lookup on an empty cache returns
the raw id; and the message for registered user U1 is delivered with U1 as
sender name. -/
theorem C9_transport_faults_witness :
    (∃ calls, sendMessage true (fun _ _ => Except.error ()) "slack:U1".data "hello".data =
        Except.ok calls) ∧
    resolveUserName [] (Except.error ()) "U1" = ("U1", []) ∧
    SlackAct.message ("slack:" ++ "U1") "123.45" "U1" "U1"
        ((some "hello" : Option String).getD "") (id "123.45") ∈
      (slackMessageHandler id (fun j => j == "slack:U1") [] (Except.error ())
        { channel_type := "im", subtype := none, user := some "U1",
          text := some "hello", ts := "123.45" }).1 :=
  ⟨C9_transport_faults_contained.1 true (fun _ _ => Except.error ()) "slack:U1".data "hello".data,
   C9_transport_faults_contained.2.1 [] "U1" rfl,
   C9_transport_faults_contained.2.2 id (fun j => j == "slack:U1")
     { channel_type := "im", subtype := none, user := some "U1",
       text := some "hello", ts := "123.45" }
     "U1" rfl rfl rfl (by decide) (by decide)⟩

/- ### C10 -/

/-- C10: on a disconnected channel (app field null: never connected, or
after disconnect) sendMessage resolves normally with no transport call
attempted, and isConnected is false both initially and after disconnect. -/
theorem C10_disconnected_sendMessage_noop :
    (∀ (post : List Char → List Char → Except Unit Unit) (jid text : List Char),
        sendMessage false post jid text = Except.ok []) ∧
    isConnected initApp = false ∧
    (∀ s : Bool, isConnected (disconnectApp s) = false) := by
  exact ⟨fun _ _ _ => rfl, rfl, fun _ => rfl⟩
